import Mathlib

/- Verification development for the probing-and-aggregation engine of
`app.py`: a shallow embedding of the prober (`probe_host`), the sqlite
`probes` table and its queries, the probing loop (`probing_loop`), and
the read-side `/status` and `/history` handlers, with the behavioural
properties of the specification proved or refuted against it. -/

/-- One probe record as stored in the `probes` table of `monitoring.db`
(`host_name, host_address, timestamp, latency_ms, success`). The
auto-increment `id` is represented by position in the append-order list,
timestamps are UTC instants in seconds, `latency_ms` models the SQL
`REAL` exactly over ℚ, and `success` is the stored 0/1 integer. -/
structure Sample where
  host_name : String
  host_address : String
  timestamp : Int
  latency_ms : Option ℚ
  success : Nat
deriving DecidableEq

/-- The `probes` table, in append (rowid) order. -/
abbrev Store := List Sample

/-- A configured host entry from the `hosts` list of `config.yaml`. -/
structure Host where
  name : String
  address : String
deriving DecidableEq

/-- Value of a digit run (the numeral core of Python's `int`/`float`). -/
def digits_val (cs : List Char) : Nat :=
  cs.foldl (fun n c => 10 * n + (c.toNat - 48)) 0

/-- Strip leading and trailing whitespace, as Python's `int()` and
`float()` do to their argument. -/
def trim_ws (cs : List Char) : List Char :=
  ((cs.dropWhile Char.isWhitespace).reverse.dropWhile Char.isWhitespace).reverse

/-- Model of Python's `int(s)`: optional sign followed by a nonempty
digit run. Underscore separators and non-decimal bases never occur in
this program's inputs and are modelled as parse failures. `none` models
the `ValueError` the builtin raises. -/
def py_int (s : String) : Option Int :=
  match trim_ws s.toList with
  | [] => none
  | c :: rest =>
    let ds := if c = '-' ∨ c = '+' then rest else c :: rest
    if !ds.isEmpty && ds.all Char.isDigit then
      some (if c = '-' then -(digits_val ds : Int) else (digits_val ds : Int))
    else none

/-- Model of Python's `float(s)` restricted to plain decimal notation
(optional sign, digits, at most one decimal point) — the notation `ping`
emits for `time=` values; exponent/inf/nan forms are modelled as parse
failures. `none` models the `ValueError` the builtin raises. -/
def py_float (s : List Char) : Option ℚ :=
  match trim_ws s with
  | [] => none
  | c :: rest =>
    let ds := if c = '-' ∨ c = '+' then rest else c :: rest
    let ip := ds.takeWhile (fun x => x != '.')
    let fp := (ds.dropWhile (fun x => x != '.')).drop 1
    if (ds.filter (fun x => x == '.')).length ≤ 1
        && (ip ++ fp).all Char.isDigit && !(ip ++ fp).isEmpty then
      let v : ℚ := (digits_val ip : ℚ) + (digits_val fp : ℚ) / (10 : ℚ) ^ fp.length
      some (if c = '-' then -v else v)
    else none

/-- Python's `str.split()` with no separator: split on whitespace runs,
dropping empty fields. `acc` holds the current field reversed. -/
def ws_split_aux : List Char → List Char → List (List Char)
  | [], acc => if acc.isEmpty then [] else [acc.reverse]
  | c :: cs, acc =>
    if c.isWhitespace then
      if acc.isEmpty then ws_split_aux cs [] else acc.reverse :: ws_split_aux cs []
    else ws_split_aux cs (c :: acc)

/-- `proc.stdout.split()` from line 79. -/
def ws_split (cs : List Char) : List (List Char) := ws_split_aux cs []

/-- Does `pat` occur at the head of `cs`? (lookahead for `split_on_go`). -/
def headMatches : List Char → List Char → Bool
  | [], _ => true
  | _ :: _, [] => false
  | p :: ps, c :: cs => p == c && headMatches ps cs

/-- Python's `str.split(sep)` for a nonempty separator `pat`: at a match
the current field is emitted and the `skip` counter consumes the rest of
the separator; matches are non-overlapping and scanned left to right. -/
def split_on_go (pat : List Char) : List Char → Nat → List Char → List (List Char)
  | [], _, acc => [acc.reverse]
  | _ :: cs, Nat.succ n, acc => split_on_go pat cs n acc
  | c :: cs, 0, acc =>
    if !pat.isEmpty && headMatches pat (c :: cs) then
      acc.reverse :: split_on_go pat cs (pat.length - 1) []
    else split_on_go pat cs 0 (c :: acc)

/-- `part.split(pat)` over character lists. -/
def split_on (pat cs : List Char) : List (List Char) := split_on_go pat cs 0 []

/-- `val.endswith("ms")` from line 82. -/
def endsWithMs (cs : List Char) : Bool :=
  match cs.reverse with
  | 's' :: 'm' :: _ => true
  | _ => false

/-- The `time=` pattern searched for in each token of the ping output. -/
def timePat : List Char := ['t', 'i', 'm', 'e', '=']

/-- One iteration of the token loop of `probe_host` (lines 80–87): a
token containing `time=` (equivalently, splitting on `time=` gives at
least two segments) yields `part.split("time=")[1]`; a trailing `ms` is
dropped and the rest goes through `float(...)`; `none` is the `continue`
path taken on a `ValueError`. -/
def parse_time_token (part : List Char) : Option ℚ :=
  let segs := split_on timePat part
  if 2 ≤ segs.length then
    let val := segs.getD 1 []
    let val2 := if endsWithMs val then val.dropLast.dropLast else val
    py_float val2
  else none

/-- The token scan of lines 79–87: return the first token that parses;
`none` reaches the `return None` at line 88. -/
def scan_tokens : List (List Char) → Option ℚ
  | [] => none
  | p :: rest =>
    match parse_time_token p with
    | some v => some v
    | none => scan_tokens rest

/-- Outcome of the `subprocess.run(["ping", "-c", "1", "-W", "1", addr])`
call: return code and captured stdout. An `Except.error` argument below
stands for any exception the call can raise (timeout, missing binary,
resolution failure surfacing as an OS error, ...). -/
structure ProcResult where
  returncode : Int
  stdout : String

/-- `probe_host` (lines 70–91). The whole body sits in a
`try/except Exception` block, so a raising subprocess call returns
`None`; with return code 0 the stdout tokens are scanned for a `time=`
value; every other path returns `None`. The Lean function is total. -/
def probe_host (res : Except Unit ProcResult) : Option ℚ :=
  match res with
  | .error _ => none
  | .ok proc =>
    if proc.returncode = 0 then scan_tokens (ws_split proc.stdout.toList) else none

/-- The sample built for one host in lines 109–111 of `probing_loop` and
stamped inside `insert_probe` (line 65): `success = 1 if latency is not
None else 0`, stored latency `latency if success else None`. -/
def mk_sample (h : Host) (now : Int) (latency : Option ℚ) : Sample :=
  let success : Nat := if latency.isSome then 1 else 0
  { host_name := h.name, host_address := h.address, timestamp := now,
    latency_ms := if success ≠ 0 then latency else none, success := success }

/-- `insert_probe` on the path where the sqlite INSERT succeeds: append
one row to the table. -/
def insert_probe_ok : Store → Sample → Except Unit Store :=
  fun db s => .ok (db ++ [s])

/-- The per-host half of one `probing_loop` iteration (lines 106–112):
probe each host in order and write the sample via `ins` (the
`insert_probe` call, whose possible sqlite exception is modelled as
`Except.error`). The source has no try/except inside this loop, so a
store error propagates and aborts the remainder of the tick. -/
def probing_tick (probe : String → Option ℚ) (ins : Store → Sample → Except Unit Store)
    (now : Int) : List Host → Store → Except Unit Store
  | [], db => .ok db
  | h :: rest, db => do
      let db2 ← ins db (mk_sample h now (probe h.address))
      probing_tick probe ins now rest db2

/-- The `config.yaml` document as the program reads it: the two
recognised fields, each possibly absent (hence the `.get` defaults). -/
structure Config where
  interval_seconds : Option Int := none
  hosts : Option (List Host) := none
deriving DecidableEq

/-- The module globals one `probing_loop` iteration touches. -/
structure LoopState where
  config : Config
  HOSTS : List Host
  INTERVAL : Int
  db : Store

/-- Lines 96–104: the config reload attempt. A read/parse failure is
caught (`except Exception`) and logged, leaving every global unchanged;
an unchanged document is not re-applied; a changed one replaces
`config`, `HOSTS` and `INTERVAL` (the latter keeping its old value as
the default). -/
def reload_step (st : LoopState) (read : Except Unit Config) : LoopState :=
  match read with
  | .error _ => st
  | .ok newCfg =>
    if newCfg = st.config then st
    else { st with config := newCfg,
                   HOSTS := newCfg.hosts.getD [],
                   INTERVAL := newCfg.interval_seconds.getD st.INTERVAL }

/-- One iteration of `probing_loop` (lines 95–113): the guarded config
reload, then the unguarded per-host probe-and-insert loop, then
`time.sleep(INTERVAL)` (the sleep itself is not modelled). An error from
the host loop propagates out of the iteration — in the source this kills
the daemon thread. -/
def probing_loop_iter (read : Except Unit Config) (probe : String → Option ℚ)
    (ins : Store → Sample → Except Unit Store) (now : Int) (st : LoopState) :
    Except Unit LoopState :=
  let st2 := reload_step st read
  (probing_tick probe ins now st2.HOSTS st2.db).map (fun db2 => { st2 with db := db2 })

/-- Rows of the `probes` table for one `host_name`, in rowid order. -/
def rowsFor (db : Store) (h : String) : List Sample :=
  db.filter (fun s => s.host_name == h)

/-- What `SELECT ... WHERE host_name=? ORDER BY timestamp DESC LIMIT 1`
(lines 126–129) guarantees about its result row: a stored row of that
host whose timestamp no other such row exceeds. There is no secondary
sort key, and SQLite leaves the order of rows with equal `timestamp`
unspecified, so the query is characterised by this predicate. -/
def isLatestRow (db : Store) (h : String) (s : Sample) : Prop :=
  s ∈ rowsFor db h ∧ ∀ t ∈ rowsFor db h, t.timestamp ≤ s.timestamp

/-- Deterministic model of the same query: scan the table keeping the
row with the strictly greatest timestamp seen so far — one concrete
resolution of the tie order the SQL leaves open. -/
def latestRow (db : Store) (h : String) : Option Sample :=
  (rowsFor db h).foldl
    (fun best s =>
      match best with
      | none => some s
      | some b => if b.timestamp < s.timestamp then some s else some b)
    none

/-- The `latest` rule as the specification words it: maximum timestamp,
ties broken by append order with the most recently appended row winning.
Stated only for comparison with the query model above. -/
def spec_latest (db : Store) (h : String) : Option Sample :=
  (rowsFor db h).foldl
    (fun best s =>
      match best with
      | none => some s
      | some b => if b.timestamp ≤ s.timestamp then some s else some b)
    none

/-- `SELECT COUNT(*), SUM(success) ... WHERE host_name=? AND
timestamp >= ?` (lines 133–136). `SUM` ranges over the stored 0/1
integers; on an empty selection SQL yields `NULL`, which the code's
`(succ or 0)` turns into 0 — coinciding with the 0 sum here. -/
def count_and_successes (db : Store) (h : String) (since : Int) : Nat × Nat :=
  let rows := db.filter (fun s => s.host_name == h && decide (since ≤ s.timestamp))
  (rows.length, (rows.map (fun s => s.success)).sum)

/-- `uptime_60m` of lines 131–142: `None` unless at least one row lies
in the trailing 60-minute window, else `100.0 * (succ or 0) / total`
(the `REAL` arithmetic modelled exactly over ℚ). -/
def uptime_60m (db : Store) (h : String) (now : Int) : Option ℚ :=
  let tc := count_and_successes db h (now - 60 * 60)
  if 0 < tc.1 then some (100 * (tc.2 : ℚ) / (tc.1 : ℚ)) else none

/-- One element of the `/status` JSON array (lines 146–162); the ISO8601
serialisation of the timestamp is not modelled. -/
structure StatusEntry where
  name : String
  address : String
  timestamp : Option Int
  latency_ms : Option ℚ
  up : Bool
  uptime_60m : Option ℚ
deriving DecidableEq

/-- The `/status` entry built for one host (lines 124–162): latest row —
or the null entry when the host has no rows — plus the 60-minute uptime
ratio. -/
def status_entry (db : Store) (now : Int) (h : Host) : StatusEntry :=
  match latestRow db h.name with
  | some s =>
    { name := h.name, address := h.address, timestamp := some s.timestamp,
      latency_ms := s.latency_ms, up := s.success != 0,
      uptime_60m := uptime_60m db h.name now }
  | none =>
    { name := h.name, address := h.address, timestamp := none,
      latency_ms := none, up := false, uptime_60m := uptime_60m db h.name now }

/-- The `/status` route (lines 118–164) as a store transformer: one entry
per configured host, in configured order; the handler runs only SELECTs,
so the table comes back unchanged. -/
def status_route (hosts : List Host) (now : Int) (db : Store) :
    List StatusEntry × Store :=
  (hosts.map (status_entry db now), db)

/-- Timestamp order on samples (the `ORDER BY timestamp` key). -/
def tsLE (a b : Sample) : Prop := a.timestamp ≤ b.timestamp

instance : DecidableRel tsLE :=
  fun a b => inferInstanceAs (Decidable (a.timestamp ≤ b.timestamp))

instance : IsTotal Sample tsLE := ⟨fun a b => Int.le_total a.timestamp b.timestamp⟩

instance : IsTrans Sample tsLE := ⟨fun _ _ _ => Int.le_trans⟩

/-- `SELECT ... WHERE host_name=? AND timestamp >= ? ORDER BY timestamp`
(lines 175–179): the rows of the window in timestamp-ascending order (a
stable sort of the scan order stands in for the engine's unspecified tie
order; every property proved below holds for any such order). -/
def range_query (db : Store) (h : String) (since : Int) : List Sample :=
  List.insertionSort tsLE
    (db.filter (fun s => s.host_name == h && decide (since ≤ s.timestamp)))

/-- One element of the `/history` data array (lines 183–187). -/
structure HistoryPoint where
  timestamp : Int
  latency_ms : Option ℚ
  up : Bool
deriving DecidableEq

/-- The `/history` JSON body (lines 189–193). -/
structure HistoryBody where
  name : String
  since : Int
  data : List HistoryPoint
deriving DecidableEq

/-- A `/history` outcome: the JSON body, the explicit 400 with an error
object, or the 500 Flask produces from an uncaught exception in the
handler. -/
inductive HttpResp where
  | ok (body : HistoryBody)
  | clientError (status : Nat) (error : String)
  | serverError
deriving DecidableEq

/-- `request.args.get(k)`: first value for the key, if present. -/
def argLookup (args : List (String × String)) (k : String) : Option String :=
  (args.find? (fun p => p.1 == k)).map (fun p => p.2)

/-- `request.args.get(k, d)`. -/
def argLookupD (args : List (String × String)) (k d : String) : String :=
  (argLookup args k).getD d

/-- Python truthiness test `not host_name` on an optional string: true
for an absent parameter and for an empty one. -/
def pyFalsy (o : Option String) : Bool :=
  match o with
  | none => true
  | some s => s == ""

/-- The `/history` route (lines 166–193) as a store transformer,
faithful to the source's order of operations: `int(...)` runs on the
`minutes` argument at line 169, before the missing-`name` check at line
170, and its `ValueError` is caught nowhere in the handler. -/
def history_route (args : List (String × String)) (now : Int) (db : Store) :
    HttpResp × Store :=
  let host_name := argLookup args "name"
  match py_int (argLookupD args "minutes" "60") with
  | none => (.serverError, db)
  | some minutes =>
    if pyFalsy host_name then (.clientError 400 "missing name parameter", db)
    else
      let hn := host_name.getD ""
      let since := now - minutes * 60
      ( .ok { name := hn, since := since,
              data := (range_query db hn since).map
                (fun s => { timestamp := s.timestamp, latency_ms := s.latency_ms,
                            up := s.success != 0 }) },
        db)

/- Fixtures for the concrete instances below. -/

/-- A configured host named `a`. -/
def hostA : Host := ⟨"a", "10.0.0.1"⟩

/-- A configured host named `b`. -/
def hostB : Host := ⟨"b", "10.0.0.2"⟩

/-- A store append that raises (a sqlite error) exactly on rows of host
`a`, and appends normally otherwise. -/
def insFailA : Store → Sample → Except Unit Store :=
  fun db s => if s.host_name == "a" then .error () else .ok (db ++ [s])

/-- First of two rows of host `a` sharing the maximal timestamp. -/
def sTie1 : Sample := ⟨"a", "10.0.0.1", 5, some 1, 1⟩

/-- Second (most recently appended) row with the same timestamp. -/
def sTie2 : Sample := ⟨"a", "10.0.0.1", 5, none, 0⟩

/-- A table where host `a` has two rows with equal timestamps. -/
def dbTie : Store := [sTie1, sTie2]

/-- A table whose only row of host `a` (a successful probe) is far older
than the 60-minute window preceding instant 100000. -/
def dbStale : Store := [⟨"a", "10.0.0.1", 100, some 3, 1⟩]

/-- A table with one up and one down sample of host `a`, both within the
60-minute window preceding instant 300. -/
def dbUp : Store := [⟨"a", "10.0.0.1", 100, some 3, 1⟩, ⟨"a", "10.0.0.1", 200, none, 0⟩]

/-- A network in which every subprocess invocation raises. -/
def worldDown : String → Except Unit ProcResult := fun _ => .error ()

/- Helper lemmas shared by several results. -/

/-- With always-succeeding inserts, a tick appends exactly one sample per
host, in host-list order, whatever the probe results are. -/
theorem probing_tick_ok_append (probe : String → Option ℚ) (now : Int)
    (hosts : List Host) :
    ∀ db : Store, probing_tick probe insert_probe_ok now hosts db
      = .ok (db ++ hosts.map (fun h => mk_sample h now (probe h.address))) := by
  induction hosts with
  | nil => intro db; simp [probing_tick]
  | cons h rest ih =>
    intro db
    have := ih (db ++ [mk_sample h now (probe h.address)])
    simp only [probing_tick, insert_probe_ok, List.map_cons] at this ⊢
    rw [show (Bind.bind (Except.ok (db ++ [mk_sample h now (probe h.address)]))
          (probing_tick probe insert_probe_ok now rest)
            : Except Unit Store)
        = probing_tick probe insert_probe_ok now rest
            (db ++ [mk_sample h now (probe h.address)]) from rfl, this]
    simp

/-- C6: `probe(address)` is total — the embedding is a Lean function, so
no input raises — and each failure mode yields `none` (to be recorded as
a `success=false` sample): a raising subprocess call, a nonzero ping exit
status, and a zero exit status whose output contains no parsable `time=`
value all return `none` rather than a fabricated latency. -/
theorem probe_host_failure_modes :
    (∀ e : Unit, probe_host (.error e) = none) ∧
    (∀ p : ProcResult, p.returncode ≠ 0 → probe_host (.ok p) = none) ∧
    (∀ p : ProcResult, p.returncode = 0 →
      scan_tokens (ws_split p.stdout.toList) = none → probe_host (.ok p) = none) := by
  refine ⟨fun e => rfl, fun p hp => ?_, fun p hp hscan => ?_⟩
  · simp only [probe_host, if_neg hp]
  · simp only [probe_host, if_pos hp, hscan]

/-- Witness for C6 at concrete subprocess outcomes: a ping exiting 1 and
a ping exiting 0 without a parsable `time=` token both probe to `none`. -/
theorem probe_host_failure_modes_witness :
    probe_host (.ok ⟨1, "x time=5 ms"⟩) = none ∧
    probe_host (.ok ⟨0, "no latency here"⟩) = none :=
  ⟨probe_host_failure_modes.2.1 ⟨1, "x time=5 ms"⟩ (by decide),
   probe_host_failure_modes.2.2 ⟨0, "no latency here"⟩ rfl (by decide)⟩

/-- C7: the `/history` query returns exactly the stored samples of the
host with `timestamp >= since` — a permutation of (and membership-
equivalent to) that filter of the table — in non-decreasing timestamp
order. -/
theorem range_query_window_sorted (db : Store) (h : String) (since : Int) :
    (range_query db h since).Perm
      (db.filter (fun s => s.host_name == h && decide (since ≤ s.timestamp))) ∧
    (∀ s : Sample, s ∈ range_query db h since ↔
      s ∈ db ∧ s.host_name = h ∧ since ≤ s.timestamp) ∧
    List.Sorted tsLE (range_query db h since) := by
  refine ⟨List.perm_insertionSort tsLE _, fun s => ?_, List.sorted_insertionSort tsLE _⟩
  rw [range_query, (List.perm_insertionSort tsLE _).mem_iff, List.mem_filter]
  simp [and_assoc]

/-- C9: the read-side handlers are pure with respect to the store: each
hands the table back unchanged (the source executes only SELECTs), so two
consecutive calls with no intervening append return identical results. -/
theorem read_routes_idempotent (hosts : List Host) (args : List (String × String))
    (now : Int) (db : Store) :
    (status_route hosts now db).2 = db ∧
    (history_route args now db).2 = db ∧
    (status_route hosts now (status_route hosts now db).2).1
      = (status_route hosts now db).1 ∧
    (history_route args now (history_route args now db).2).1
      = (history_route args now db).1 := by
  have hh : (history_route args now db).2 = db := by
    rcases hm : py_int (argLookupD args "minutes" "60") with _ | m
    · simp only [history_route, hm]
    · simp only [history_route, hm]
      split <;> rfl
  exact ⟨rfl, hh, rfl, by rw [hh]⟩

/-- C8: when reading or parsing `config.yaml` fails, the exception is
caught at lines 103–104: the active snapshot (`config`, `HOSTS`,
`INTERVAL`) stays exactly as it was, and the iteration proceeds to probe
the previously active host list — with working inserts it completes
normally, appending one sample per previously configured host. -/
theorem reload_failure_keeps_snapshot (probe : String → Option ℚ) (now : Int)
    (st : LoopState) (e : Unit) :
    reload_step st (.error e) = st ∧
    probing_loop_iter (.error e) probe insert_probe_ok now st
      = .ok { st with
              db := st.db ++ st.HOSTS.map (fun h => mk_sample h now (probe h.address)) } := by
  refine ⟨rfl, ?_⟩
  show (probing_tick probe insert_probe_ok now st.HOSTS st.db).map _ = _
  rw [probing_tick_ok_append]
  rfl

/-- C1 fails on the code: lines 106–112 have no try/except around the
per-host probe-and-insert body, so a store-append exception for one host
aborts the whole tick. With an insert raising on host `a`, the tick over
`[a, b]` evaluates to the propagated error — host `b` is neither probed
nor written, instead of `a` being recorded as a failed sample and the
tick continuing; lifted to a loop iteration the error likewise escapes,
which in the source kills the daemon thread. -/
theorem probing_tick_store_error_aborts :
    probing_tick (fun _ => none) insFailA 0 [hostA, hostB] [] = .error () ∧
    probing_loop_iter (.ok {}) (fun _ => none) insFailA 0
      ⟨{}, [hostA, hostB], 10, []⟩ = .error () :=
  ⟨rfl, rfl⟩

/-- C1 amended: exceptions inside the Prober are caught within
`probe_host` itself, so probe failures are recorded as `success=false`
samples and never abort the tick — with working inserts a tick appends
exactly one sample per host whatever the probe results are; but an
exception from the Sample Store append is not caught at any per-host
boundary: it propagates at once, the remaining hosts of the tick are not
probed or written, and the loop iteration terminates with the error. -/
theorem probing_tick_error_boundary :
    (∀ (probe : String → Option ℚ) (now : Int) (hosts : List Host) (db : Store),
      probing_tick probe insert_probe_ok now hosts db
        = .ok (db ++ hosts.map (fun h => mk_sample h now (probe h.address)))) ∧
    (∀ (probe : String → Option ℚ) (ins : Store → Sample → Except Unit Store)
        (now : Int) (h : Host) (rest : List Host) (db : Store) (e : Unit),
      ins db (mk_sample h now (probe h.address)) = .error e →
      probing_tick probe ins now (h :: rest) db = .error e) ∧
    (∀ (read : Except Unit Config) (probe : String → Option ℚ)
        (ins : Store → Sample → Except Unit Store) (now : Int) (st : LoopState) (e : Unit),
      probing_tick probe ins now (reload_step st read).HOSTS (reload_step st read).db
        = .error e →
      probing_loop_iter read probe ins now st = .error e) := by
  refine ⟨fun probe now hosts db => probing_tick_ok_append probe now hosts db,
          fun probe ins now h rest db e hfail => ?_,
          fun read probe ins now st e hfail => ?_⟩
  · show (Bind.bind (ins db (mk_sample h now (probe h.address))) _ : Except Unit Store)
      = .error e
    rw [hfail]
    rfl
  · show (probing_tick probe ins now (reload_step st read).HOSTS
      (reload_step st read).db).map _ = _
    rw [hfail]
    rfl

/-- Witness for C1's amended statement: the store-error propagation
conjunct applied at the concrete failing insert, and the success conjunct
at a concrete host list. -/
theorem probing_tick_error_boundary_witness :
    probing_tick (fun _ => none) insFailA 3 [hostA, hostB] [] = .error () ∧
    probing_tick (fun _ => none) insert_probe_ok 3 [hostB] []
      = .ok [mk_sample hostB 3 none] :=
  ⟨probing_tick_error_boundary.2.1 (fun _ => none) insFailA 3 hostA [hostB] [] () rfl,
   probing_tick_error_boundary.1 (fun _ => none) 3 [hostB] []⟩

/-- C2 fails on the code: `int(request.args.get("minutes", "60"))` runs
at line 169, before the missing-`name` check at line 170, and its
`ValueError` is caught nowhere — so a request with a non-integer
`minutes` (here one that is also missing `name`, for which the claim
demands the 400 client error) produces an uncaught-exception server
error instead. -/
theorem history_route_nonint_minutes_cex :
    (history_route [("minutes", "abc")] 7 []).1 = HttpResp.serverError ∧
    (history_route [("minutes", "abc")] 7 []).1
      ≠ HttpResp.clientError 400 "missing name parameter" := by
  decide

/-- C2 amended: when the `minutes` parameter (the string "60" when
absent) parses as an integer and `name` is absent or empty, the response
is the 400 client error with body `error = "missing name parameter"`,
whatever the store contains; an absent `minutes` behaves as 60, the
window starting at `now` minus 60 minutes; but a present non-integer
`minutes` raises an uncaught `ValueError` and yields a server-side
failure (HTTP 500), not a client error — even when `name` is missing
too. -/
theorem history_route_param_handling :
    (∀ (args : List (String × String)) (now : Int) (db : Store) (m : Int),
      py_int (argLookupD args "minutes" "60") = some m →
      pyFalsy (argLookup args "name") = true →
      (history_route args now db).1 = .clientError 400 "missing name parameter") ∧
    (∀ (args : List (String × String)) (now : Int) (db : Store) (n : String),
      argLookup args "minutes" = none → argLookup args "name" = some n → n ≠ "" →
      (history_route args now db).1
        = .ok { name := n, since := now - 60 * 60,
                data := (range_query db n (now - 60 * 60)).map
                  (fun s => { timestamp := s.timestamp, latency_ms := s.latency_ms,
                              up := s.success != 0 }) }) ∧
    (∀ (args : List (String × String)) (now : Int) (db : Store),
      py_int (argLookupD args "minutes" "60") = none →
      (history_route args now db).1 = .serverError) := by
  refine ⟨fun args now db m hm hname => ?_, fun args now db n hm hname hne => ?_,
          fun args now db hm => ?_⟩
  · simp only [history_route, hm, hname]
    rfl
  · have hd : argLookupD args "minutes" "60" = "60" := by
      rw [argLookupD, hm]
      rfl
    have h60 : py_int (argLookupD args "minutes" "60") = some 60 := by
      rw [hd]
      decide
    have hfal : pyFalsy (some n) = false := by
      simpa [pyFalsy] using hne
    simp only [history_route, h60, hname, hfal]
    norm_num
  · simp only [history_route, hm]

/-- Witness for C2's amended statement at concrete requests: `name`
missing with a parseable `minutes` gives the 400; `minutes` missing
defaults the window to 60 minutes; a non-integer `minutes` gives the
uncaught-exception server error. -/
theorem history_route_param_handling_witness :
    (history_route [("minutes", "5")] 7 []).1
      = HttpResp.clientError 400 "missing name parameter" ∧
    (history_route [("name", "a")] 7 []).1
      = HttpResp.ok { name := "a", since := 7 - 60 * 60, data := [] } ∧
    (history_route [("name", "a"), ("minutes", "6.5")] 7 []).1
      = HttpResp.serverError := by
  refine ⟨history_route_param_handling.1 [("minutes", "5")] 7 [] 5 (by decide) (by decide),
          ?_,
          history_route_param_handling.2.2 [("name", "a"), ("minutes", "6.5")] 7 []
            (by decide)⟩
  have h := history_route_param_handling.2.1 [("name", "a")] 7 [] "a"
    (by decide) (by decide) (by decide)
  rw [h]
  rfl

/-- Folding the latest-row scan from a concrete starting row yields a row
drawn from the starting row or the list, with a timestamp bounding them
all. -/
theorem latest_fold_spec :
    ∀ (l : List Sample) (b : Sample),
      ∃ r : Sample,
        l.foldl (fun best s =>
          match best with
          | none => some s
          | some b2 => if b2.timestamp < s.timestamp then some s else some b2) (some b)
          = some r
        ∧ (r = b ∨ r ∈ l) ∧ b.timestamp ≤ r.timestamp
        ∧ ∀ t ∈ l, t.timestamp ≤ r.timestamp := by
  intro l
  induction l with
  | nil => exact fun b => ⟨b, rfl, Or.inl rfl, le_refl _, by simp⟩
  | cons s rest ih =>
    intro b
    rw [List.foldl_cons]
    by_cases hlt : b.timestamp < s.timestamp
    · obtain ⟨r, hr, hmem, hge, hall⟩ := ih s
      refine ⟨r, ?_, ?_, le_of_lt (lt_of_lt_of_le hlt hge), ?_⟩
      · dsimp only
        rw [if_pos hlt]
        exact hr
      · rcases hmem with rfl | hm
        · exact Or.inr (List.mem_cons_self _ _)
        · exact Or.inr (List.mem_cons_of_mem _ hm)
      · intro t ht
        rcases List.mem_cons.mp ht with rfl | hm
        · exact hge
        · exact hall t hm
    · obtain ⟨r, hr, hmem, hge, hall⟩ := ih b
      refine ⟨r, ?_, ?_, hge, ?_⟩
      · dsimp only
        rw [if_neg hlt]
        exact hr
      · rcases hmem with rfl | hm
        · exact Or.inl rfl
        · exact Or.inr (List.mem_cons_of_mem _ hm)
      · intro t ht
        rcases List.mem_cons.mp ht with rfl | hm
        · exact le_trans (le_of_not_lt hlt) hge
        · exact hall t hm

/-- C3 fails on the code: the latest-row query orders by `timestamp`
alone, with no secondary key, so among rows sharing the maximal
timestamp the engine's tie order is unspecified — the earlier-appended
row `sTie1` is a valid result of the query on `dbTie`, yet the claimed
tie-break (most recent append wins) designates `sTie2`. -/
theorem latest_row_tie_cex :
    isLatestRow dbTie "a" sTie1 ∧ spec_latest dbTie "a" = some sTie2 ∧ sTie1 ≠ sTie2 := by
  refine ⟨⟨by decide, by decide⟩, by decide, by decide⟩

/-- C3 amended: any row the latest query can return for a host carries
the maximal timestamp among that host's rows (and the `/status` fields
are taken from that one row); for a host with no rows the query returns
null. No append-order tie-break among rows sharing the maximal timestamp
is guaranteed. -/
theorem latest_row_max_timestamp (db : Store) (h : String) :
    (∀ s : Sample, latestRow db h = some s → isLatestRow db h s) ∧
    (latestRow db h = none ↔ rowsFor db h = []) := by
  constructor
  · intro s hs
    rcases hrows : rowsFor db h with _ | ⟨x, rest⟩
    · rw [latestRow, hrows] at hs
      cases hs
    · rw [latestRow, hrows, List.foldl_cons] at hs
      obtain ⟨r, hr, hmem, hge, hall⟩ := latest_fold_spec rest x
      rw [hr] at hs
      obtain rfl := Option.some.inj hs
      refine ⟨?_, ?_⟩
      · rw [hrows]
        rcases hmem with rfl | hm
        · exact List.mem_cons_self _ _
        · exact List.mem_cons_of_mem _ hm
      · intro t ht
        rw [hrows] at ht
        rcases List.mem_cons.mp ht with rfl | hm
        · exact hge
        · exact hall t hm
  · constructor
    · intro hnone
      rcases hrows : rowsFor db h with _ | ⟨x, rest⟩
      · rfl
      · rw [latestRow, hrows, List.foldl_cons] at hnone
        obtain ⟨r, hr, _, _, _⟩ := latest_fold_spec rest x
        rw [hr] at hnone
        cases hnone
    · intro hrows
      rw [latestRow, hrows]
      rfl

/-- Witness for C3's amended statement: the row the deterministic scan
returns on the stale fixture indeed carries the maximal timestamp. -/
theorem latest_row_max_timestamp_witness :
    isLatestRow dbStale "a" ⟨"a", "10.0.0.1", 100, some 3, 1⟩ :=
  (latest_row_max_timestamp dbStale "a").1 ⟨"a", "10.0.0.1", 100, some 3, 1⟩ (by decide)

/-- Over rows whose `success` flags are all 0 or 1 (as every tick
writes), the SQL `SUM(success)` equals the number of `success = 1`
rows. -/
theorem sum_success_eq_count :
    ∀ l : List Sample, (∀ s ∈ l, s.success ≤ 1) →
      (l.map (fun s => s.success)).sum
        = (l.filter (fun s => s.success == 1)).length := by
  intro l
  induction l with
  | nil => intro _; rfl
  | cons a rest ih =>
    intro hall
    have ha := hall a (List.mem_cons_self a rest)
    have hrest := ih fun s hs => hall s (List.mem_cons_of_mem a hs)
    rcases Nat.le_one_iff_eq_zero_or_eq_one.mp ha with h0 | h1
    · simp [List.filter_cons, h0, hrest]
    · simp [List.filter_cons, h1, hrest, Nat.add_comm]

/-- C4: the `/status` uptime field is `None` iff no sample of the host
lies in the trailing 60-minute window; otherwise it equals exactly
`100 * successes / total` over the window's samples (each stored
`success` flag being 0 or 1, as every tick writes), a value within
[0, 100]. REAL arithmetic is modelled exactly over ℚ. -/
theorem status_uptime_window (db : Store) (h : String) (now : Int)
    (hs : ∀ s ∈ db, s.success ≤ 1) :
    (uptime_60m db h now = none ↔
      db.filter (fun s => s.host_name == h && decide (now - 60 * 60 ≤ s.timestamp)) = []) ∧
    (∀ q : ℚ, uptime_60m db h now = some q →
      q = 100 * (((db.filter (fun s => s.host_name == h
                    && decide (now - 60 * 60 ≤ s.timestamp))).filter
                      (fun s => s.success == 1)).length : ℚ)
            / ((db.filter (fun s => s.host_name == h
                  && decide (now - 60 * 60 ≤ s.timestamp))).length : ℚ)
        ∧ 0 ≤ q ∧ q ≤ 100) := by
  set rows := db.filter (fun s => s.host_name == h && decide (now - 60 * 60 ≤ s.timestamp))
    with hrows
  have hsub : ∀ s ∈ rows, s.success ≤ 1 := fun s hmem =>
    hs s (List.mem_of_mem_filter hmem)
  have hsum : (rows.map (fun s => s.success)).sum
      = (rows.filter (fun s => s.success == 1)).length := sum_success_eq_count rows hsub
  constructor
  · rw [uptime_60m]
    dsimp only [count_and_successes]
    rw [← hrows]
    constructor
    · intro hnone
      by_cases hlen : 0 < rows.length
      · rw [if_pos hlen] at hnone
        cases hnone
      · exact List.length_eq_zero.mp (Nat.eq_zero_of_not_pos hlen)
    · intro hempty
      rw [if_neg]
      rw [hempty]
      simp
  · intro q hq
    rw [uptime_60m] at hq
    dsimp only [count_and_successes] at hq
    rw [← hrows] at hq
    by_cases hlen : 0 < rows.length
    · rw [if_pos hlen] at hq
      obtain rfl := Option.some.inj hq
      have hlenq : (0 : ℚ) < (rows.length : ℚ) := by exact_mod_cast hlen
      refine ⟨by rw [hsum], ?_, ?_⟩
      · positivity
      · rw [div_le_iff₀ hlenq, hsum]
        calc (100 : ℚ) * ((rows.filter (fun s => s.success == 1)).length : ℚ)
            ≤ 100 * (rows.length : ℚ) := by
              have hle : ((rows.filter (fun s => s.success == 1)).length : ℚ)
                  ≤ (rows.length : ℚ) := by
                exact_mod_cast List.length_filter_le _ rows
              linarith
          _ = 100 * (rows.length : ℚ) := rfl
    · rw [if_neg hlen] at hq
      cases hq

/-- Witness for C4 at a concrete table: on `dbUp` at instant 300 the
window is nonempty, so the uptime is not `None`. -/
theorem status_uptime_window_witness :
    uptime_60m dbUp "a" 300 = none ↔
      dbUp.filter (fun s => s.host_name == "a"
        && decide ((300 : Int) - 60 * 60 ≤ s.timestamp)) = [] :=
  (status_uptime_window dbUp "a" 300 (by decide)).1

/-- A successful `scan_tokens` value comes from some token of the list. -/
theorem scan_tokens_some_mem :
    ∀ (l : List (List Char)) (v : ℚ), scan_tokens l = some v →
      ∃ t ∈ l, parse_time_token t = some v := by
  intro l
  induction l with
  | nil => intro v h; cases h
  | cons p rest ih =>
    intro v h
    rw [scan_tokens] at h
    rcases hp : parse_time_token p with _ | w
    · rw [hp] at h
      obtain ⟨t, ht, hpt⟩ := ih v h
      exact ⟨t, List.mem_cons_of_mem _ ht, hpt⟩
    · rw [hp] at h
      obtain rfl := Option.some.inj h
      exact ⟨p, List.mem_cons_self _ _, hp⟩

/-- The documented invariant on one stored row: a failed sample has a
null latency, a successful one a non-negative latency value. -/
def sample_inv (s : Sample) : Prop :=
  (s.success = 0 → s.latency_ms = none) ∧
  (s.success ≠ 0 → ∃ v : ℚ, s.latency_ms = some v ∧ 0 ≤ v)

/-- The sample lines 109–111 build satisfies the invariant whenever the
probe value, if any, is non-negative. -/
theorem mk_sample_inv (h : Host) (now : Int) (lat : Option ℚ)
    (hpos : ∀ v : ℚ, lat = some v → 0 ≤ v) : sample_inv (mk_sample h now lat) := by
  rcases lat with _ | v
  · exact ⟨fun _ => rfl, fun hc => absurd rfl hc⟩
  · refine ⟨fun h0 => ?_, fun _ => ⟨v, rfl, hpos v rfl⟩⟩
    simp [mk_sample] at h0

/-- C5: every row a tick writes satisfies the invariant — `success=0`
rows store a null latency and `success=1` rows a latency value, which is
non-negative provided every latency the prober parses out of the ping
output is non-negative (as real round-trip times are). Starting from a
table of invariant-satisfying rows, the table produced by a tick over
any hosts and any ping behaviours (with succeeding inserts) again
consists of invariant-satisfying rows. -/
theorem tick_samples_invariant (world : String → Except Unit ProcResult)
    (hosts : List Host) (now : Int) (db db2 : Store)
    (hdb : ∀ s ∈ db, sample_inv s)
    (henv : ∀ (a : String) (p : ProcResult) (t : List Char) (v : ℚ),
      world a = .ok p → t ∈ ws_split p.stdout.toList →
      parse_time_token t = some v → 0 ≤ v)
    (hrun : probing_tick (fun a => probe_host (world a)) insert_probe_ok now hosts db
      = .ok db2) :
    ∀ s ∈ db2, sample_inv s := by
  rw [probing_tick_ok_append] at hrun
  obtain rfl := Except.ok.inj hrun
  intro s hs
  rcases List.mem_append.mp hs with hmem | hmem
  · exact hdb s hmem
  · obtain ⟨h, _, rfl⟩ := List.mem_map.mp hmem
    apply mk_sample_inv
    intro v hv
    rcases hw : world h.address with e | p
    · rw [hw] at hv
      cases hv
    · rw [hw] at hv
      simp only [probe_host] at hv
      by_cases hrc : p.returncode = 0
      · rw [if_pos hrc] at hv
        obtain ⟨t, ht, hpt⟩ := scan_tokens_some_mem _ v hv
        exact henv h.address p t v hw ht hpt
      · rw [if_neg hrc] at hv
        cases hv

/-- Witness for C5 at a concrete network in which every subprocess call
raises: the one sample the tick writes satisfies the invariant. -/
theorem tick_samples_invariant_witness :
    sample_inv (mk_sample hostA 3 none) :=
  tick_samples_invariant worldDown [hostA] 3 [] [mk_sample hostA 3 none]
    (fun s hs => absurd hs (List.not_mem_nil s))
    (fun a p t v hp => absurd hp (by simp [worldDown]))
    rfl (mk_sample hostA 3 none) (List.mem_singleton.mpr rfl)

/-- C10: for a host all of whose rows are older than the 60-minute
window, the `/status` entry reports uptime `None` while timestamp,
latency and up are still taken from the stale latest row; the concrete
stale store exhibits an entry with `up = true` and a null uptime, so
`up = true` never implies a non-null `uptime_60m`. -/
theorem status_stale_host (db : Store) (h : Host) (now : Int)
    (hne : rowsFor db h.name ≠ [])
    (hstale : ∀ s ∈ rowsFor db h.name, s.timestamp < now - 60 * 60) :
    ((status_entry db now h).uptime_60m = none ∧
     ∃ s : Sample, latestRow db h.name = some s ∧ s ∈ rowsFor db h.name ∧
       (status_entry db now h).timestamp = some s.timestamp ∧
       (status_entry db now h).latency_ms = s.latency_ms ∧
       (status_entry db now h).up = (s.success != 0)) ∧
    ((status_entry dbStale 100000 hostA).up = true ∧
     (status_entry dbStale 100000 hostA).uptime_60m = none) := by
  have hwin : db.filter (fun s => s.host_name == h.name
      && decide (now - 60 * 60 ≤ s.timestamp)) = [] := by
    rw [List.filter_eq_nil_iff]
    intro s hsdb
    by_cases hname : s.host_name == h.name
    · have hmem : s ∈ rowsFor db h.name := List.mem_filter.mpr ⟨hsdb, hname⟩
      have hlt := hstale s hmem
      simp only [hname, Bool.true_and, decide_eq_true_eq]
      omega
    · simp [hname]
  have hupt : uptime_60m db h.name now = none := by
    rw [uptime_60m]
    dsimp only [count_and_successes]
    rw [hwin]
    simp
  rcases hrows : rowsFor db h.name with _ | ⟨x, rest⟩
  · exact absurd hrows hne
  · have hlat : ∃ r : Sample, latestRow db h.name = some r ∧ r ∈ x :: rest := by
      obtain ⟨r, hr, hmem, _, _⟩ := latest_fold_spec rest x
      refine ⟨r, ?_, ?_⟩
      · rw [latestRow, hrows, List.foldl_cons]
        exact hr
      · rcases hmem with rfl | hm
        · exact List.mem_cons_self _ _
        · exact List.mem_cons_of_mem _ hm
    obtain ⟨r, hr, hrmem⟩ := hlat
    refine ⟨⟨?_, r, hr, hrmem, ?_, ?_, ?_⟩, by decide, by decide⟩
    · simp [status_entry, hr, hupt]
    · simp [status_entry, hr]
    · simp [status_entry, hr]
    · simp [status_entry, hr]

/-- Witness for C10 at the concrete stale store: the entry's uptime is
null even though its latest row exists (and shows `up = true`). -/
theorem status_stale_host_witness :
    (status_entry dbStale 100000 hostA).uptime_60m = none :=
  ((status_stale_host dbStale hostA 100000 (by decide) (by decide)).1).1
